import Mathlib

/-!
Shallow embedding of the browser to-do list manager in `src/js/script.js`.

The script keeps a single mutable `state = { todos, history, currentFilter }`,
persists `todos` and `history` as two JSON-serialized arrays in `localStorage`,
and mutates the state through three event handlers (`handleAddTodo`,
`handleListClick`, `handleFilterChange`) plus `logHistory`, `saveState`,
`loadState` and `checkStorage`.

Embedding choices:
* JS arrays become Lean `List`s; `push` is append at the tail, `unshift` is
  `::` at the head, `pop` is `dropLast` (drops the last element), and
  `Array.prototype.filter` is `List.filter` (order preserving).
* `Date.now()` and the formatted `toLocaleString` timestamp are external
  clock reads; the handlers take them as explicit parameters (`now : Nat`,
  `ts : String`).
* `localStorage` is a map from string keys to stored payloads.  A payload is
  modelled at the granularity the program observes through
  `JSON.parse`/`JSON.stringify`: `none` = key absent (`getItem` returns
  `null`), `some none` = a payload on which `JSON.parse` throws (the
  `catch` branch of `checkStorage`), `some (some j)` = a payload that
  parses to the JSON value `j`.  `JSON.stringify` followed by `JSON.parse`
  is the identity on JSON trees for the data this program stores, so
  `setItem` stores the JSON tree of the serialized collection.
* The DOM is out of scope except for the pieces the claims mention: the
  inline error message (`showError`/`hideError`) is a string field of the
  world, and a click inside the list is abstracted by which element the
  delegated handler resolves it to (`ClickTarget`).
-/

namespace TodoApp

/-- Task record created by `handleAddTodo` (script.js lines 95-101):
`{ id: Date.now(), text, description, date, completed: false }`. -/
structure Task where
  id : Nat
  text : String
  description : String
  date : String
  completed : Bool
deriving Repr, DecidableEq

/-- History record prepended by `logHistory` (script.js line 187):
`{ action, timestamp }`. -/
structure HistoryEntry where
  action : String
  timestamp : String
deriving Repr, DecidableEq

/-- The application state object (script.js lines 21-25). -/
structure AppState where
  todos : List Task
  history : List HistoryEntry
  currentFilter : String
deriving Repr, DecidableEq

/-- JavaScript `String.prototype.trim`: drops whitespace from both ends.
The builtin is platform code; it is modelled structurally on the string's
character list (so it also evaluates inside the kernel). -/
def jsTrim (s : String) : String :=
  String.mk
    (((s.data.dropWhile Char.isWhitespace).reverse.dropWhile
        Char.isWhitespace).reverse)

/-- JSON values, the data `localStorage` payloads parse to. -/
inductive Json where
  | null : Json
  | bool : Bool → Json
  | num : Int → Json
  | str : String → Json
  | arr : List Json → Json
  | obj : List (String × Json) → Json
deriving Repr

/-- The key-value store behind `localStorage`.  `none`: key absent;
`some none`: payload present but `JSON.parse` throws on it;
`some (some j)`: payload parses to `j`. -/
def Storage : Type := String → Option (Option Json)

/-- A store with no keys set. -/
def emptyStorage : Storage := fun _ => none

/-- Sets a key to a well-formed serialized value
(`localStorage.setItem(key, JSON.stringify(v))`). -/
def setItem (store : Storage) (key : String) (val : Json) : Storage :=
  fun k => if k = key then some (some val) else store k

/-- The world visible to the handlers: the app state, the storage, and the
inline error message element's text content. -/
structure World where
  state : AppState
  store : Storage
  errorMessage : String

/-- The serialization `JSON.stringify` performs on one task object. -/
def taskToJson (t : Task) : Json :=
  Json.obj [("id", Json.num (t.id : Int)), ("text", Json.str t.text),
    ("description", Json.str t.description), ("date", Json.str t.date),
    ("completed", Json.bool t.completed)]

/-- The serialization `JSON.stringify` performs on the `todos` array. -/
def tasksToJson (ts : List Task) : Json :=
  Json.arr (ts.map taskToJson)

/-- The serialization `JSON.stringify` performs on one history object. -/
def entryToJson (e : HistoryEntry) : Json :=
  Json.obj [("action", Json.str e.action), ("timestamp", Json.str e.timestamp)]

/-- The serialization `JSON.stringify` performs on the `history` array. -/
def historyToJson (hs : List HistoryEntry) : Json :=
  Json.arr (hs.map entryToJson)

/-- Reads a task shape back from a JSON value (how the program consumes a
parsed element of the `todos` array: the five fields of §3's Task). -/
def jsonToTask : Json → Option Task
  | Json.obj [("id", Json.num i), ("text", Json.str tx),
      ("description", Json.str de), ("date", Json.str da),
      ("completed", Json.bool c)] =>
      if 0 ≤ i then
        some { id := i.toNat, text := tx, description := de, date := da,
               completed := c }
      else none
  | _ => none

/-- Reads a history-entry shape back from a JSON value. -/
def jsonToEntry : Json → Option HistoryEntry
  | Json.obj [("action", Json.str a), ("timestamp", Json.str t)] =>
      some { action := a, timestamp := t }
  | _ => none

/-- Decodes every element of a JSON list, failing if any element fails. -/
def decodeList (f : Json → Option α) : List Json → Option (List α)
  | [] => some []
  | x :: xs =>
      match f x, decodeList f xs with
      | some a, some rest => some (a :: rest)
      | _, _ => none

/-- Reads the `todos` collection back from its parsed JSON value. -/
def jsonToTasks : Json → Option (List Task)
  | Json.arr xs => decodeList jsonToTask xs
  | _ => none

/-- Reads the `history` collection back from its parsed JSON value. -/
def jsonToHistory : Json → Option (List HistoryEntry)
  | Json.arr xs => decodeList jsonToEntry xs
  | _ => none

/-- checkStorage (script.js lines 165-173): `getItem`; a `null` (or empty)
payload yields `[]`; `JSON.parse` throwing is caught and yields `[]`;
otherwise the parsed value is returned as is. -/
def checkStorage (store : Storage) (key : String) : Json :=
  match store key with
  | none => Json.arr []
  | some none => Json.arr []
  | some (some j) => j

/-- saveState (script.js lines 175-178): serializes `state.todos` under key
`todos` and `state.history` under key `history`. -/
def saveState (s : AppState) (store : Storage) : Storage :=
  setItem (setItem store "todos" (tasksToJson s.todos)) "history"
    (historyToJson s.history)

/-- logHistory (script.js lines 185-192): builds a timestamp (passed in as
`ts`), `unshift`s the entry, and if the length exceeds 30 `pop`s the last
(oldest) entry.  Does not save or render. -/
def logHistory (action ts : String) (s : AppState) : AppState :=
  let h := { action := action, timestamp := ts } :: s.history
  { s with history := if h.length > 30 then h.dropLast else h }

/-- handleAddTodo (script.js lines 83-114): trims the title; if the trimmed
title or the (untrimmed) date is empty, shows the error message and
returns without touching state or storage; otherwise hides the error,
appends `{ id: Date.now(), text, description: desc.trim(), date,
completed: false }`, logs `Added task: "text"`, and saves. -/
def handleAddTodo (titleRaw dateVal descRaw : String) (now : Nat)
    (ts : String) (w : World) : World :=
  let title := jsTrim titleRaw
  if title = "" ∨ dateVal = "" then
    { w with errorMessage := "Task title and date cannot be empty!" }
  else
    let newTodo : Task :=
      { id := now, text := title, description := jsTrim descRaw,
        date := dateVal, completed := false }
    let st := { w.state with todos := w.state.todos ++ [newTodo] }
    let st := logHistory ("Added task: \"" ++ newTodo.text ++ "\"") ts st
    { state := st, store := saveState st w.store, errorMessage := "" }

/-- Which element a click inside the todo list resolves to, per the
delegation chain of `handleListClick`: the trash button, the complete
button, the todo item body, or none of these (including clicks outside
any `.todo` div). -/
inductive ClickTarget where
  | trash : ClickTarget
  | complete : ClickTarget
  | item : ClickTarget
  | other : ClickTarget
deriving Repr, DecidableEq

/-- Flips `completed` on the first task with the given id, the effect of
mutating the object returned by `state.todos.find(...)` in place. -/
def toggleFirst (todoId : Nat) : List Task → List Task
  | [] => []
  | t :: rest =>
      if t.id = todoId then { t with completed := !t.completed } :: rest
      else t :: toggleFirst todoId rest

/-- handleListClick (script.js lines 121-151): resolves the clicked todo's
id and `taskText = find(t => t.id === todoId)?.text || ''`.  Trash:
filters the task out, logs `Removed task: "text"`, saves.  Complete: if
the task is found, flips `completed`, logs `Completed`/`Marked as
incomplete`, saves; otherwise nothing.  Item body: toggles a CSS class
only (no state, no save).  Anything else: nothing. -/
def handleListClick (todoId : Nat) (tgt : ClickTarget) (ts : String)
    (w : World) : World :=
  let taskText :=
    ((w.state.todos.find? (fun t => t.id == todoId)).map Task.text).getD ""
  match tgt with
  | ClickTarget.trash =>
      let st := { w.state with
        todos := w.state.todos.filter (fun todo => todo.id != todoId) }
      let st := logHistory ("Removed task: \"" ++ taskText ++ "\"") ts st
      { w with state := st, store := saveState st w.store }
  | ClickTarget.complete =>
      match w.state.todos.find? (fun t => t.id == todoId) with
      | none => w
      | some todoToUpdate =>
          let newCompleted := !todoToUpdate.completed
          let st := { w.state with todos := toggleFirst todoId w.state.todos }
          let action :=
            if newCompleted then "Completed" else "Marked as incomplete"
          let st := logHistory (action ++ " task: \"" ++ taskText ++ "\"") ts st
          { w with state := st, store := saveState st w.store }
  | ClickTarget.item => w
  | ClickTarget.other => w

/-- The filtered projection computed inside `render` (script.js lines
36-40): `completed` keeps completed tasks, `incomplete` keeps the rest,
any other filter value keeps everything. -/
def filteredTodos (s : AppState) : List Task :=
  s.todos.filter (fun todo =>
    if s.currentFilter = "completed" then todo.completed
    else if s.currentFilter = "incomplete" then !todo.completed
    else true)

/-- handleFilterChange (script.js lines 157-160): updates `currentFilter`
only; no save. -/
def handleFilterChange (newFilter : String) (w : World) : World :=
  { w with state := { w.state with currentFilter := newFilter } }

/-- A sample incomplete task, as created by the example in §8 of the spec. -/
def taskA : Task :=
  { id := 1, text := "Buy milk", description := "", date := "2024-01-01",
    completed := false }

/-- A sample completed task. -/
def taskB : Task :=
  { id := 2, text := "Write report", description := "draft",
    date := "2024-01-02", completed := true }

/-- The world at first launch: empty state, empty storage, no error shown. -/
def w0 : World :=
  { state := { todos := [], history := [], currentFilter := "all" },
    store := emptyStorage, errorMessage := "" }

/-- A world holding the two sample tasks. -/
def wAB : World :=
  { state := { todos := [taskA, taskB], history := [], currentFilter := "all" },
    store := emptyStorage, errorMessage := "" }

/-- A history log at the 30-entry cap. -/
def hist30 : List HistoryEntry :=
  List.replicate 30 ({ action := "x", timestamp := "y" } : HistoryEntry)

/-- A world whose history log is at the 30-entry cap. -/
def w30 : World :=
  { state := { todos := [], history := hist30, currentFilter := "all" },
    store := emptyStorage, errorMessage := "" }

/-! ## Helper lemmas -/

/-- logHistory never touches the task list. -/
theorem logHistory_todos (a ts : String) (s : AppState) :
    (logHistory a ts s).todos = s.todos := rfl

/-- Length of the history after `logHistory`: grows by one below the cap,
stays put at (or above) it. -/
theorem logHistory_length (a ts : String) (s : AppState) :
    (logHistory a ts s).history.length =
      if 30 ≤ s.history.length then s.history.length
      else s.history.length + 1 := by
  simp only [logHistory, List.length_cons]
  by_cases h : 30 ≤ s.history.length
  · rw [if_pos (by omega), if_pos h]
    simp [List.length_dropLast]
  · rw [if_neg (by omega), if_neg h]
    simp

/-- The entry just logged is always at the head of the history. -/
theorem logHistory_head (a ts : String) (s : AppState) :
    (logHistory a ts s).history.head? =
      some { action := a, timestamp := ts } := by
  simp only [logHistory]
  by_cases h : ({ action := a, timestamp := ts } :: s.history).length > 30
  · have hne : s.history ≠ [] := by
      intro he
      rw [he] at h
      simp at h
    rw [if_pos h, List.dropLast_cons_of_ne_nil hne]
    rfl
  · rw [if_neg h]
    rfl

/-- With pairwise-distinct ids, `find` on a member's id returns that member. -/
theorem find_id_of_nodup (t0 : Task) (l : List Task)
    (hnd : (l.map Task.id).Nodup) (hmem : t0 ∈ l) :
    l.find? (fun t => t.id == t0.id) = some t0 := by
  induction l with
  | nil => simp at hmem
  | cons t rest ih =>
      simp only [List.map_cons, List.nodup_cons] at hnd
      rcases List.mem_cons.mp hmem with heq | hrest
      · subst heq
        simp [List.find?_cons_of_pos]
      · have hne : t.id ≠ t0.id := by
          intro hid
          exact hnd.1 (hid ▸ List.mem_map_of_mem Task.id hrest)
        rw [List.find?_cons_of_neg _ (by simpa using hne)]
        exact ih hnd.2 hrest

/-- With pairwise-distinct ids, filtering a member's id out removes exactly
one element. -/
theorem filter_id_length (t0 : Task) (l : List Task)
    (hnd : (l.map Task.id).Nodup) (hmem : t0 ∈ l) :
    (l.filter (fun t => t.id != t0.id)).length + 1 = l.length := by
  induction l with
  | nil => simp at hmem
  | cons t rest ih =>
      simp only [List.map_cons, List.nodup_cons] at hnd
      rcases List.mem_cons.mp hmem with heq | hrest
      · subst heq
        have hrest_ne : ∀ x ∈ rest, (x.id != t0.id) = true := by
          intro x hx
          simp only [bne_iff_ne, ne_eq]
          intro hid
          exact hnd.1 (hid ▸ List.mem_map_of_mem Task.id hx)
        simp [List.filter_cons, List.filter_eq_self.mpr hrest_ne]
      · have hne : (t.id != t0.id) = true := by
          simp only [bne_iff_ne, ne_eq]
          intro hid
          exact hnd.1 (hid ▸ List.mem_map_of_mem Task.id hrest)
        simp only [List.filter_cons, hne, if_pos]
        simp only [List.length_cons]
        rw [← ih hnd.2 hrest]

/-- Filtering an id that no task has leaves the list unchanged. -/
theorem filter_id_missing (idv : Nat) (l : List Task)
    (h : ∀ t ∈ l, t.id ≠ idv) :
    l.filter (fun t => t.id != idv) = l :=
  List.filter_eq_self.mpr (fun t ht => by simpa using h t ht)

/-- Reading a task record back from its serialization recovers it. -/
theorem jsonToTask_taskToJson (t : Task) :
    jsonToTask (taskToJson t) = some t := by
  simp [taskToJson, jsonToTask]

/-- Reading a history record back from its serialization recovers it. -/
theorem jsonToEntry_entryToJson (e : HistoryEntry) :
    jsonToEntry (entryToJson e) = some e := rfl

/-- decodeList inverts an element-wise serialization. -/
theorem decodeList_map {α : Type} (f : Json → Option α) (g : α → Json)
    (hfg : ∀ b, f (g b) = some b) (l : List α) :
    decodeList f (l.map g) = some l := by
  induction l with
  | nil => rfl
  | cons b rest ih => simp [decodeList, hfg, ih]

/-! ## Claim theorems -/

/-- C2: after every state-mutating operation the history holds at most 30
entries, and appending to a log of exactly 30 entries prepends the new
entry and evicts exactly the oldest (tail) entry. -/
theorem history_capacity :
    (∀ (a ts : String) (s : AppState), s.history.length ≤ 30 →
      (logHistory a ts s).history.length ≤ 30) ∧
    (∀ (a ts : String) (s : AppState), s.history.length = 30 →
      (logHistory a ts s).history =
        { action := a, timestamp := ts } :: s.history.dropLast) ∧
    (∀ (ti da de : String) (now : Nat) (ts : String) (w : World),
      w.state.history.length ≤ 30 →
      (handleAddTodo ti da de now ts w).state.history.length ≤ 30) ∧
    (∀ (idv : Nat) (tgt : ClickTarget) (ts : String) (w : World),
      w.state.history.length ≤ 30 →
      (handleListClick idv tgt ts w).state.history.length ≤ 30) := by
  have hlog : ∀ (a ts : String) (s : AppState), s.history.length ≤ 30 →
      (logHistory a ts s).history.length ≤ 30 := by
    intro a ts s hle
    rw [logHistory_length]
    split <;> omega
  refine ⟨hlog, ?_, ?_, ?_⟩
  · intro a ts s h30
    have hne : s.history ≠ [] := by
      intro he
      rw [he] at h30
      simp at h30
    simp only [logHistory, List.length_cons, h30]
    rw [if_pos (by omega), List.dropLast_cons_of_ne_nil hne]
  · intro ti da de now ts w hle
    by_cases hbad : jsTrim ti = "" ∨ da = ""
    · simp only [handleAddTodo, if_pos hbad]
      exact hle
    · simp only [handleAddTodo, if_neg hbad]
      exact hlog _ _ _ hle
  · intro idv tgt ts w hle
    cases tgt with
    | trash => exact hlog _ _ _ hle
    | complete =>
        simp only [handleListClick]
        cases hfind : w.state.todos.find? (fun t => t.id == idv) with
        | none => exact hle
        | some t => exact hlog _ _ _ hle
    | item => exact hle
    | other => exact hle

/-- C2 witness: the capacity bound and the eviction shape, exercised on a
world whose log already holds exactly 30 entries. -/
theorem history_capacity_witness :
    (logHistory "a" "t" w30.state).history.length ≤ 30 ∧
    (logHistory "a" "t" w30.state).history =
      { action := "a", timestamp := "t" } :: w30.state.history.dropLast ∧
    (handleAddTodo "a" "2024-01-01" "" 1 "t" w30).state.history.length ≤
      30 ∧
    (handleListClick 1 ClickTarget.trash "t" w30).state.history.length ≤
      30 :=
  ⟨history_capacity.1 "a" "t" w30.state (by decide),
   history_capacity.2.1 "a" "t" w30.state (by decide),
   history_capacity.2.2.1 "a" "2024-01-01" "" 1 "t" w30 (by decide),
   history_capacity.2.2.2 1 ClickTarget.trash "t" w30 (by decide)⟩

/-- C1 (amended): with an id matching no task, the complete-toggle click
is a complete no-op, while the delete click leaves the tasks unchanged
but still prepends a `Removed task: ""` history entry and persists the
state. -/
theorem missing_id_click (idv : Nat) (ts : String) (w : World)
    (hmiss : ∀ t ∈ w.state.todos, t.id ≠ idv) :
    handleListClick idv ClickTarget.complete ts w = w ∧
    (handleListClick idv ClickTarget.trash ts w).state.todos =
      w.state.todos ∧
    (handleListClick idv ClickTarget.trash ts w).state.history =
      (logHistory ("Removed task: \"\"") ts w.state).history ∧
    (handleListClick idv ClickTarget.trash ts w).store =
      saveState (handleListClick idv ClickTarget.trash ts w).state
        w.store := by
  have hfind : w.state.todos.find? (fun t => t.id == idv) = none :=
    List.find?_eq_none.mpr (fun t ht => by simpa using hmiss t ht)
  have hstr : "Removed task: \"" ++ "" ++ "\"" = "Removed task: \"\"" := rfl
  refine ⟨?_, ?_, ?_, ?_⟩
  · simp only [handleListClick, hfind]
  · simp only [handleListClick, hfind, logHistory_todos]
    exact filter_id_missing idv w.state.todos hmiss
  · simp only [handleListClick, hfind, logHistory]
    rw [show ("Removed task: \"" ++
        (Option.map Task.text (none : Option Task)).getD "" ++ "\"") =
      "Removed task: \"\"" from rfl]
  · simp only [handleListClick, hfind]

/-- C1 counterexample: on the empty store, a delete click for the absent
id 1 is not a no-op on the history sequence. -/
theorem missing_id_delete_not_noop :
    (handleListClick 1 ClickTarget.trash "t" w0).state.history ≠
      w0.state.history := by decide

/-- C1 witness: the amended behaviour at the concrete absent id 99 on a
two-task world. -/
theorem missing_id_click_witness :
    handleListClick 99 ClickTarget.complete "t" wAB = wAB ∧
    (handleListClick 99 ClickTarget.trash "t" wAB).state.todos =
      wAB.state.todos ∧
    (handleListClick 99 ClickTarget.trash "t" wAB).state.history =
      (logHistory ("Removed task: \"\"") "t" wAB.state).history ∧
    (handleListClick 99 ClickTarget.trash "t" wAB).store =
      saveState (handleListClick 99 ClickTarget.trash "t" wAB).state
        wAB.store :=
  missing_id_click 99 "t" wAB (by decide)

/-- C3 (amended): a valid submission appends exactly one task with
completed = false and prepends exactly one history entry; tasks.length
grows by one, and history.length grows by one exactly when the log held
fewer than 30 entries (otherwise the oldest entry is evicted and the
length is unchanged). -/
theorem addTodo_valid (titleRaw dateVal descRaw : String) (now : Nat)
    (ts : String) (w : World)
    (ht : jsTrim titleRaw ≠ "") (hd : dateVal ≠ "") :
    (handleAddTodo titleRaw dateVal descRaw now ts w).state.todos =
      w.state.todos ++
        [{ id := now, text := jsTrim titleRaw,
           description := jsTrim descRaw, date := dateVal,
           completed := false }] ∧
    (handleAddTodo titleRaw dateVal descRaw now ts w).state.todos.length =
      w.state.todos.length + 1 ∧
    (handleAddTodo titleRaw dateVal descRaw now ts w).state.history.head? =
      some { action := "Added task: \"" ++ jsTrim titleRaw ++ "\"",
             timestamp := ts } ∧
    (handleAddTodo titleRaw dateVal descRaw now ts w).state.history.length =
      if w.state.history.length < 30 then w.state.history.length + 1
      else w.state.history.length := by
  have hcond : ¬ (jsTrim titleRaw = "" ∨ dateVal = "") := by
    rintro (h | h)
    · exact ht h
    · exact hd h
  simp only [handleAddTodo, if_neg hcond]
  refine ⟨?_, ?_, ?_, ?_⟩
  · rw [logHistory_todos]
  · rw [logHistory_todos]
    simp
  · exact logHistory_head _ _ _
  · simp only [logHistory_length]
    split <;> split <;> omega

/-- C3 counterexample: adding a valid task to a world whose history is at
the 30-entry cap leaves history.length at 30 instead of growing by 1. -/
theorem addTodo_full_history_cex :
    (handleAddTodo "a" "2024-01-01" "" 1 "t" w30).state.history.length ≠
      w30.state.history.length + 1 := by decide

/-- C3 witness: the amended behaviour on a concrete valid submission to
the empty world. -/
theorem addTodo_valid_witness :
    (handleAddTodo "Buy milk" "2024-01-01" "" 7 "t" w0).state.todos =
      w0.state.todos ++
        [{ id := 7, text := jsTrim "Buy milk", description := jsTrim "",
           date := "2024-01-01", completed := false }] ∧
    (handleAddTodo "Buy milk" "2024-01-01" "" 7 "t" w0).state.todos.length =
      w0.state.todos.length + 1 ∧
    (handleAddTodo "Buy milk" "2024-01-01" "" 7 "t" w0).state.history.head? =
      some { action := "Added task: \"" ++ jsTrim "Buy milk" ++ "\"",
             timestamp := "t" } ∧
    (handleAddTodo "Buy milk" "2024-01-01" "" 7 "t" w0).state.history.length =
      if w0.state.history.length < 30 then w0.state.history.length + 1
      else w0.state.history.length :=
  addTodo_valid "Buy milk" "2024-01-01" "" 7 "t" w0 (by decide) (by decide)

/-- C5 (amended): an add whose clock reading is larger than every id
already in the store preserves pairwise-distinctness of the task ids;
the code itself does not enforce this freshness of `Date.now()`. -/
theorem addTodo_fresh_id_nodup (titleRaw dateVal descRaw : String)
    (now : Nat) (ts : String) (w : World)
    (hfresh : ∀ t ∈ w.state.todos, t.id < now)
    (hnd : (w.state.todos.map Task.id).Nodup) :
    ((handleAddTodo titleRaw dateVal descRaw now ts w).state.todos.map
      Task.id).Nodup := by
  by_cases hbad : jsTrim titleRaw = "" ∨ dateVal = ""
  · simp only [handleAddTodo, if_pos hbad]
    exact hnd
  · simp only [handleAddTodo, if_neg hbad, logHistory_todos]
    rw [List.map_append, List.nodup_append]
    refine ⟨hnd, List.nodup_singleton _, ?_⟩
    intro x hx hx1
    simp only [List.map_cons, List.map_nil, List.mem_singleton] at hx1
    subst hx1
    rcases List.mem_map.mp hx with ⟨t, htmem, hid⟩
    exact absurd hid (Nat.ne_of_lt (hfresh t htmem))

/-- C5 counterexample: two adds in the same millisecond (`Date.now()`
returning 5 twice) produce two tasks with the same id. -/
theorem duplicate_id_same_millisecond :
    ¬ (((handleAddTodo "b" "2024-01-02" "" 5 "t"
          (handleAddTodo "a" "2024-01-01" "" 5 "t" w0)).state.todos.map
        Task.id).Nodup) := by decide

/-- C5 witness: a fresh clock reading keeps the ids of the two-task world
pairwise distinct after an add. -/
theorem addTodo_fresh_id_nodup_witness :
    ((handleAddTodo "c" "2024-01-03" "" 99 "t" wAB).state.todos.map
      Task.id).Nodup :=
  addTodo_fresh_id_nodup "c" "2024-01-03" "" 99 "t" wAB (by decide)
    (by decide)

/-- C7: deleting a task that is present (task ids pairwise distinct, per
the §3 data model) removes exactly that task, keeps the remaining tasks
in their original order, and prepends one history entry quoting the
removed task's text. -/
theorem remove_existing_task (t0 : Task) (ts : String) (w : World)
    (hmem : t0 ∈ w.state.todos)
    (hnd : (w.state.todos.map Task.id).Nodup) :
    (handleListClick t0.id ClickTarget.trash ts w).state.todos =
      w.state.todos.filter (fun t => t.id != t0.id) ∧
    (handleListClick t0.id ClickTarget.trash ts w).state.todos.length + 1 =
      w.state.todos.length ∧
    (∀ t ∈ (handleListClick t0.id ClickTarget.trash ts w).state.todos,
      t.id ≠ t0.id) ∧
    List.Sublist (handleListClick t0.id ClickTarget.trash ts w).state.todos
      w.state.todos ∧
    (handleListClick t0.id ClickTarget.trash ts w).state.history.head? =
      some { action := "Removed task: \"" ++ t0.text ++ "\"",
             timestamp := ts } := by
  have hfind : w.state.todos.find? (fun t => t.id == t0.id) = some t0 :=
    find_id_of_nodup t0 w.state.todos hnd hmem
  have h1 : (handleListClick t0.id ClickTarget.trash ts w).state.todos =
      w.state.todos.filter (fun t => t.id != t0.id) := by
    simp only [handleListClick, hfind, logHistory_todos]
  refine ⟨h1, ?_, ?_, ?_, ?_⟩
  · rw [h1]
    exact filter_id_length t0 w.state.todos hnd hmem
  · rw [h1]
    intro t ht
    simpa using (List.mem_filter.mp ht).2
  · rw [h1]
    exact List.filter_sublist _
  · simp only [handleListClick, hfind, Option.map_some, Option.getD_some]
    exact logHistory_head _ _ _

/-- C7 witness: deleting the first sample task from the two-task world. -/
theorem remove_existing_task_witness :
    (handleListClick taskA.id ClickTarget.trash "t" wAB).state.todos =
      wAB.state.todos.filter (fun t => t.id != taskA.id) ∧
    (handleListClick taskA.id ClickTarget.trash "t" wAB).state.todos.length
        + 1 = wAB.state.todos.length ∧
    (∀ t ∈ (handleListClick taskA.id ClickTarget.trash "t"
        wAB).state.todos, t.id ≠ taskA.id) ∧
    List.Sublist
      (handleListClick taskA.id ClickTarget.trash "t" wAB).state.todos
      wAB.state.todos ∧
    (handleListClick taskA.id ClickTarget.trash "t"
        wAB).state.history.head? =
      some { action := "Removed task: \"" ++ taskA.text ++ "\"",
             timestamp := "t" } :=
  remove_existing_task taskA "t" wAB (by decide) (by decide)

/-- C4: a submission with blank (trimmed-empty) title or empty date mutates
neither tasks nor history, writes nothing to storage, and shows the
inline error message. -/
theorem addTodo_invalid (titleRaw dateVal descRaw : String) (now : Nat)
    (ts : String) (w : World)
    (hbad : jsTrim titleRaw = "" ∨ dateVal = "") :
    (handleAddTodo titleRaw dateVal descRaw now ts w).state = w.state ∧
    (handleAddTodo titleRaw dateVal descRaw now ts w).store = w.store ∧
    (handleAddTodo titleRaw dateVal descRaw now ts w).errorMessage =
      "Task title and date cannot be empty!" := by
  simp [handleAddTodo, if_pos hbad]

/-- C4 witness: a whitespace-only title with a valid date is rejected and
the empty world is left untouched. -/
theorem addTodo_invalid_witness :
    (handleAddTodo " " "2024-01-01" "" 1 "t" w0).state = w0.state ∧
    (handleAddTodo " " "2024-01-01" "" 1 "t" w0).store = w0.store ∧
    (handleAddTodo " " "2024-01-01" "" 1 "t" w0).errorMessage =
      "Task title and date cannot be empty!" :=
  addTodo_invalid " " "2024-01-01" "" 1 "t" w0 (Or.inl (by decide))

/-- C6: the rendered projection with filter `completed` keeps exactly the
completed tasks, with `incomplete` exactly the non-completed ones, and
with `all` every task; each projection is a sublist of the original
(order preserved, no task modified). -/
theorem filtered_projection (s : AppState) :
    (∀ t, t ∈ filteredTodos { s with currentFilter := "completed" } ↔
      t ∈ s.todos ∧ t.completed = true) ∧
    (∀ t, t ∈ filteredTodos { s with currentFilter := "incomplete" } ↔
      t ∈ s.todos ∧ t.completed = false) ∧
    filteredTodos { s with currentFilter := "all" } = s.todos ∧
    List.Sublist (filteredTodos { s with currentFilter := "completed" })
      s.todos ∧
    List.Sublist (filteredTodos { s with currentFilter := "incomplete" })
      s.todos := by
  refine ⟨?_, ?_, ?_, ?_, ?_⟩
  · intro t
    simp [filteredTodos, List.mem_filter]
  · intro t
    simp [filteredTodos, List.mem_filter]
  · simp [filteredTodos]
  · exact List.filter_sublist s.todos
  · exact List.filter_sublist s.todos

/-- C8: saving the state and reading both collections back through the
parse step recovers collections equal to the pre-save state. -/
theorem save_load_roundtrip (s : AppState) (store : Storage) :
    jsonToTasks (checkStorage (saveState s store) "todos") = some s.todos ∧
    jsonToHistory (checkStorage (saveState s store) "history") =
      some s.history := by
  have htodos : saveState s store "todos" =
      some (some (tasksToJson s.todos)) := by
    simp [saveState, setItem]
  have fhist : saveState s store "history" =
      some (some (historyToJson s.history)) := by
    simp [saveState, setItem]
  constructor
  · rw [checkStorage, htodos]
    exact decodeList_map jsonToTask taskToJson jsonToTask_taskToJson s.todos
  · rw [checkStorage, fhist]
    exact decodeList_map jsonToEntry entryToJson jsonToEntry_entryToJson
      s.history

/-- C9: a missing key or a payload on which the parse throws makes
`checkStorage` return the empty array; the total function never
propagates the error. -/
theorem checkStorage_missing_or_corrupt (store : Storage) (key : String)
    (h : store key = none ∨ store key = some none) :
    checkStorage store key = Json.arr [] := by
  rcases h with h | h <;> rw [checkStorage, h]

/-- C9 witness: reading the `todos` key from an empty store yields the
empty array. -/
theorem checkStorage_missing_witness :
    checkStorage emptyStorage "todos" = Json.arr [] :=
  checkStorage_missing_or_corrupt emptyStorage "todos" (Or.inl rfl)

/-- C10: any filter value other than `completed` and `incomplete` — not
only `all` — leaves every task in the projection, unchanged and in the
original order. -/
theorem filtered_unknown_filter (s : AppState) (f : String)
    (h1 : f ≠ "completed") (h2 : f ≠ "incomplete") :
    filteredTodos { s with currentFilter := f } = s.todos := by
  simp [filteredTodos, h1, h2]

/-- C10 witness: the unknown filter string `bogus` behaves like `all` on a
two-task state. -/
theorem filtered_unknown_filter_witness :
    filteredTodos { wAB.state with currentFilter := "bogus" } =
      wAB.state.todos :=
  filtered_unknown_filter wAB.state "bogus" (by decide) (by decide)

end TodoApp
